import Mathlib

/-!
Verification of the detection–matching–alarm pipeline of `app_cam_ande`.

The Python sources are shallowly embedded:
* `app/services/features.py`  → `FeatureVector` (the cv2-backed numeric
  routines `build_feature_vector`, `dominant_color_name` and
  `compare_feature_vectors` operate on raw images through OpenCV, so they
  are abstracted as an oracle record `Vision`);
* `app/services/detector.py`  → namespace `Detector`;
* `app/services/camera.py`    → namespace `Camera`;
* `app/services/alarm.py`     → namespace `Alarm` (sequential phase logic)
  and namespace `AlarmSeq` (the lock/thread interleaving model).

Machine floats are modelled as `ℚ`, numpy integer boxes as `ℤ`,
`datetime.utcnow()` timestamps as `ℕ` parameters.
-/

/-- `features.FeatureVector`: colour histogram, average colour, edge density. -/
structure FeatureVector where
  color_hist : List ℚ
  average_color : ℤ × ℤ × ℤ
  edge_density : ℚ
deriving DecidableEq, Repr

/-- `models.WatchlistEntry`, the fields read by the matching pipeline.
`feature_vector = none` models a Python-falsy stored descriptor
(absent JSON column or empty dict). -/
structure WatchlistEntry where
  id : ℕ
  label : String
  vehicle_type : Option String
  color_name : Option String
  has_logo : Bool
  is_person : Bool
  feature_vector : Option FeatureVector
deriving DecidableEq, Repr

/-- Oracle for the OpenCV/numpy image routines: array slicing,
`build_feature_vector`, `dominant_color_name` and
`compare_feature_vectors` (the latter wraps `cv2.compareHist`).
`Img` is the type of raw pixel arrays. -/
structure Vision (Img : Type) where
  slice : Img → ℤ → ℤ → ℤ → ℤ → Img
  build_feature_vector : Img → FeatureVector
  dominant_color_name : Img → String
  compare_feature_vectors : FeatureVector → FeatureVector → ℚ

/-- A decoded frame: `height × width` pixel array. -/
structure Frame (Img : Type) where
  height : ℕ
  width : ℕ
  data : Img
deriving DecidableEq, Repr

/-- Length of the Python/numpy slice `a[start:stop]` over an axis of
length `n` (negative indices count from the end, then both ends are
clamped to `[0, n]`). -/
def pySliceLen (n : ℕ) (start stop : ℤ) : ℕ :=
  let norm : ℤ → ℤ := fun i => if i < 0 then (n : ℤ) + i else i
  let s := max 0 (min (n : ℤ) (norm start))
  let e := max 0 (min (n : ℤ) (norm stop))
  (e - s).toNat

/-- Character-list prefix test (used for the Python substring operator). -/
def leadsWith : List Char → List Char → Bool
  | [], _ => true
  | _ :: _, [] => false
  | a :: as, b :: bs => a = b && leadsWith as bs

/-- Character-list substring test. -/
def hasSub (n : List Char) : List Char → Bool
  | [] => n.isEmpty
  | c :: rest => leadsWith n (c :: rest) || hasSub n rest

/-- Python `needle in haystack` on strings. -/
def pyIn (needle haystack : String) : Bool :=
  hasSub needle.data haystack.data

/-- Python `str.lower()` (ASCII case folding suffices for the strings the
pipeline compares). -/
def pyLower (s : String) : String :=
  ⟨s.data.map Char.toLower⟩

/-- Python `str.strip()`: remove leading and trailing whitespace. -/
def pyStrip (s : String) : String :=
  ⟨((s.data.dropWhile Char.isWhitespace).reverse.dropWhile Char.isWhitespace).reverse⟩

namespace Detector

/-- `detector.YOLO_VEHICLE_CLASSES`. -/
def YOLO_VEHICLE_CLASSES : List String := ["car", "motorcycle", "bus", "truck", "train"]

/-- `detector.YOLO_PERSON_CLASSES`. -/
def YOLO_PERSON_CLASSES : List String := ["person"]

/-- `detector.DetectionResult` (the `roi` numpy view is kept abstract). -/
structure DetectionResult (Img : Type) where
  label : String
  confidence : ℚ
  bbox : ℤ × ℤ × ℤ × ℤ
  class_name : String
  roi : Img
deriving DecidableEq, Repr

/-- One raw box produced by the YOLO model inside `VehicleDetector.detect`:
`float(box.conf)`, the class name looked up in `model.names`, and
`box.xyxy…astype(int)[0]`. -/
structure RawBox where
  conf : ℚ
  cls : String
  x1 : ℤ
  y1 : ℤ
  x2 : ℤ
  y2 : ℤ
deriving DecidableEq, Repr

/-- The body of the per-box loop of `VehicleDetector.detect` (model-loaded
path): confidence filter, clamping of the four coordinates, the
`frame[y1:y2, x1:x2]` ROI, the `roi.size == 0` discard — and the appended
`DetectionResult` carrying the ORIGINAL `bbox` array (the code unpacks and
clamps `x1, y1, x2, y2` but stores the unmodified `bbox`). -/
def detectLoaded {Img : Type} (min_confidence : ℚ) (V : Vision Img)
    (frame : Frame Img) (raw : List RawBox) : List (DetectionResult Img) :=
  raw.filterMap fun b =>
    if b.conf < min_confidence then none
    else
      let cx1 := max 0 b.x1
      let cy1 := max 0 b.y1
      let cx2 := min (frame.width : ℤ) b.x2
      let cy2 := min (frame.height : ℤ) b.y2
      let roi := V.slice frame.data cy1 cy2 cx1 cx2
      if pySliceLen frame.height cy1 cy2 = 0 ∨ pySliceLen frame.width cx1 cx2 = 0 then
        none
      else
        some { label := b.cls, confidence := b.conf, bbox := (b.x1, b.y1, b.x2, b.y2),
               class_name := b.cls, roi := roi }

/-- `VehicleDetector._degraded_detection`. -/
def degraded_detection {Img : Type} (V : Vision Img) (frame : Frame Img) :
    List (DetectionResult Img) :=
  let height := frame.height
  let width := frame.width
  let roi := V.slice frame.data (height / 4 : ℕ) (height * 3 / 4 : ℕ)
      (width / 4 : ℕ) (width * 3 / 4 : ℕ)
  [{ label := "desconocido", confidence := 3/10,
     bbox := ((width / 4 : ℕ), (height / 4 : ℕ), (width * 3 / 4 : ℕ), (height * 3 / 4 : ℕ)),
     class_name := "desconocido", roi := roi }]

/-- `VehicleDetector`: the optional model is a function from frames to raw
boxes when loaded, `none` in degraded mode. -/
structure VehicleDetector (Img : Type) where
  model : Option (Frame Img → List RawBox)
  min_confidence : ℚ

/-- `VehicleDetector.detect`. -/
def detect {Img : Type} (det : VehicleDetector Img) (V : Vision Img)
    (frame : Frame Img) : List (DetectionResult Img) :=
  match det.model with
  | none => degraded_detection V frame
  | some m => detectLoaded det.min_confidence V frame (m frame)

/-- `VehicleDetector._match_vehicle_type`. -/
def match_vehicle_type {Img : Type} (detection : DetectionResult Img)
    (watch_entry : WatchlistEntry) : Bool :=
  if watch_entry.is_person then
    YOLO_PERSON_CLASSES.contains detection.class_name
  else
    match watch_entry.vehicle_type with
    | none => YOLO_VEHICLE_CLASSES.contains detection.class_name
    | some t => pyIn (pyLower t) (pyLower detection.class_name)

/-- The per-entry score computed inside the `find_matches` loop:
appearance base (`compare_feature_vectors` when a stored descriptor is
truthy, the flat `0.1` otherwise), then the colour-name bonus, then the
logo bonus.  `color_name` is Python-falsy when `none` or empty. -/
def scoreEntry {Img : Type} (V : Vision Img) (detection : DetectionResult Img)
    (roi_features : FeatureVector) (entry : WatchlistEntry) : ℚ :=
  let score : ℚ :=
    match entry.feature_vector with
    | some fv => V.compare_feature_vectors roi_features fv
    | none => 1/10
  let score : ℚ :=
    match entry.color_name with
    | none => score
    | some c =>
        if c = "" then score
        else
          let detected_color := V.dominant_color_name detection.roi
          if detected_color = pyLower c then score + 1/10 else score - 1/20
  if entry.has_logo then
    if roi_features.edge_density > 3/20 then score + 1/20 else score - 1/20
  else score

/-- The best-match selection loop of `find_matches`: starting from
`best_match = None`, `best_score = 0.0`, skip ineligible entries and
update the pair whenever the score strictly exceeds the running best. -/
def pickBest {α : Type} (eligible : α → Bool) (score : α → ℚ) :
    List α → Option α → ℚ → Option α × ℚ
  | [], best, bs => (best, bs)
  | e :: rest, best, bs =>
      if eligible e then
        if score e > bs then pickBest eligible score rest (some e) (score e)
        else pickBest eligible score rest best bs
      else pickBest eligible score rest best bs

/-- One element of the list returned by `find_matches`:
`(detection, best_match, best_score, roi_features)`. -/
structure MatchResult (Img : Type) where
  detection : DetectionResult Img
  best_match : Option WatchlistEntry
  best_score : ℚ
  roi_features : FeatureVector
deriving DecidableEq, Repr

/-- The per-detection part of `VehicleDetector.find_matches`, applied to an
already-computed detection list. -/
def findMatchesFrom {Img : Type} (V : Vision Img)
    (detections : List (DetectionResult Img)) (watchlist : List WatchlistEntry) :
    List (MatchResult Img) :=
  detections.map fun detection =>
    let roi_features := V.build_feature_vector detection.roi
    let best := pickBest (match_vehicle_type detection)
      (scoreEntry V detection roi_features) watchlist none 0
    { detection := detection, best_match := best.1, best_score := best.2,
      roi_features := roi_features }

/-- `VehicleDetector.find_matches`. -/
def find_matches {Img : Type} (det : VehicleDetector Img) (V : Vision Img)
    (frame : Frame Img) (watchlist : List WatchlistEntry) : List (MatchResult Img) :=
  findMatchesFrom V (detect det V frame) watchlist

/-- The categorical colour adjustment of the score: `+0.1` when the
declared colour (Python-truthy) matches the region's dominant colour
name, `−0.05` when it does not, `0` when no colour is declared. -/
def colorAdjust (detected_color : String) (entry : WatchlistEntry) : ℚ :=
  match entry.color_name with
  | none => 0
  | some c => if c = "" then 0 else if detected_color = pyLower c then 1/10 else -(1/20)

/-- The categorical logo adjustment of the score: `+0.05` when the entry
declares a logo and the candidate edge density exceeds `0.15`, `−0.05`
when it declares one and the density does not, `0` otherwise. -/
def logoAdjust (edge_density : ℚ) (entry : WatchlistEntry) : ℚ :=
  if entry.has_logo then (if edge_density > 3/20 then 1/20 else -(1/20)) else 0

end Detector

namespace Camera

/-- `camera.CameraSnapshot` (timestamps as abstract `ℕ`). -/
structure CameraSnapshot where
  source : String
  frame_skip : ℤ
  min_confidence : ℚ
  connected : Bool
  last_connected_at : Option ℕ
  last_error : Option String
deriving DecidableEq, Repr

/-- The keyword arguments accepted by `_apply_updates` / `update` / `connect`. -/
structure Overrides where
  source : Option String
  frame_skip : Option ℤ
  min_confidence : Option ℚ
deriving DecidableEq, Repr

def sourceMsg : String := "La fuente de la cámara no puede estar vacía."
def frameSkipMsg : String := "El número de saltos de cuadro debe ser al menos 1."
def confidenceMsg : String := "La confianza mínima debe estar entre 0 y 1."

/-- `CameraController._apply_updates`: the three overrides are validated
and written to `self._state` one field at a time, in the fixed order
source → frame_skip → min_confidence; a `ValueError` aborts the rest but
the fields already written stay written.  Returns the state as mutated so
far together with the raised message, if any. -/
def apply_updates (o : Overrides) (st : CameraSnapshot) :
    CameraSnapshot × Option String :=
  let step1 : CameraSnapshot × Option String :=
    match o.source with
    | none => (st, none)
    | some s => if pyStrip s = "" then (st, some sourceMsg)
                else ({ st with source := pyStrip s }, none)
  match step1 with
  | (st1, some e) => (st1, some e)
  | (st1, none) =>
    let step2 : CameraSnapshot × Option String :=
      match o.frame_skip with
      | none => (st1, none)
      | some k => if k < 1 then (st1, some frameSkipMsg)
                  else ({ st1 with frame_skip := k }, none)
    match step2 with
    | (st2, some e) => (st2, some e)
    | (st2, none) =>
      match o.min_confidence with
      | none => (st2, none)
      | some c => if ¬ (0 ≤ c ∧ c ≤ 1) then (st2, some confidenceMsg)
                  else ({ st2 with min_confidence := c }, none)

/-- `CameraController.update`: no-op when every override is `None`,
otherwise `_apply_updates` under the lock. -/
def update (o : Overrides) (st : CameraSnapshot) : CameraSnapshot × Option String :=
  if o.source = none ∧ o.frame_skip = none ∧ o.min_confidence = none then (st, none)
  else apply_updates o st

/-- `CameraController.connect`: `_apply_updates`, then mark connected,
clear the error and stamp `last_connected_at` — the marking is skipped
when `_apply_updates` raises. -/
def connect (o : Overrides) (now : ℕ) (st : CameraSnapshot) :
    CameraSnapshot × Option String :=
  match apply_updates o st with
  | (st1, some e) => (st1, some e)
  | (st1, none) =>
      ({ st1 with connected := true, last_error := none,
                  last_connected_at := some now }, none)

/-- The supplied source override fails validation (Python-falsy after
`strip()`). -/
def srcInvalid (o : Overrides) : Bool :=
  match o.source with
  | none => false
  | some s => pyStrip s = ""

/-- The supplied frame-skip override fails validation (`< 1`). -/
def skipInvalid (o : Overrides) : Bool :=
  match o.frame_skip with
  | none => false
  | some k => k < 1

/-- The supplied confidence override fails validation (outside `[0,1]`). -/
def confInvalid (o : Overrides) : Bool :=
  match o.min_confidence with
  | none => false
  | some c => ¬ (0 ≤ c ∧ c ≤ 1)

/-- State after the source override has been processed successfully. -/
def afterSource (o : Overrides) (st : CameraSnapshot) : CameraSnapshot :=
  match o.source with
  | none => st
  | some s => if pyStrip s = "" then st else { st with source := pyStrip s }

/-- State after the frame-skip override has been processed successfully. -/
def afterSkip (o : Overrides) (st : CameraSnapshot) : CameraSnapshot :=
  match o.frame_skip with
  | none => st
  | some k => if k < 1 then st else { st with frame_skip := k }

end Camera

namespace Alarm

/-- `models.AppState`, the two fields touched by `_set_visual_alarm`. -/
structure AppState where
  visual_alarm_active : Bool
  last_alarm_at : Option ℕ
deriving DecidableEq, Repr

/-- `AlarmManager._set_visual_alarm`: writes the flag AND stamps
`last_alarm_at = datetime.utcnow()` on every call, for both the `True`
and the `False` transition. -/
def set_visual_alarm (active : Bool) (now : ℕ) (_st : AppState) : AppState :=
  { visual_alarm_active := active, last_alarm_at := some now }

/-- Configuration read by `_handle_alarm`: `self.enable_audio`, whether
`self.sound_file` is set and exists, and `settings.alarm.relay_active_seconds`. -/
structure AlarmConfig where
  enable_audio : Bool
  sound_file_ok : Bool
  relay_active_seconds : ℚ

/-- The observable phases of one `_handle_alarm` run. -/
inductive AlarmPhase
  | audio
  | relay
  | visualOn
  | visualOff
deriving DecidableEq, Repr

/-- `AlarmManager._handle_alarm`, run under `self._lock`.  The outcomes of
the external calls are inputs: `audio_result` for the playback attempt
(its exception is caught and logged) and `relay_result` for
`RelayController.activate` (NOT wrapped in try/except: an exception
there propagates and aborts the remaining phases).  Returns the phases
that executed, the final `AppState`, and the escaping exception. -/
def handle_alarm (cfg : AlarmConfig) (audio_result relay_result : Except String Unit)
    (t3 t4 : ℕ) (st : AppState) : List AlarmPhase × AppState × Option String :=
  -- Phase 1 (audio): the playback attempt sits inside try/except, so an
  -- exception is logged and mapped to "no escaping exception".
  let audioPhases : List AlarmPhase :=
    if cfg.enable_audio ∧ cfg.sound_file_ok then [AlarmPhase.audio] else []
  let audioEscape : Option String :=
    if cfg.enable_audio ∧ cfg.sound_file_ok then
      match audio_result with
      | .error _ => none
      | .ok _ => none
    else none
  match audioEscape with
  | some e => (audioPhases, st, some e)
  | none =>
    -- Phase 2 (relay): `self.relay.activate(...)` has no surrounding
    -- try/except, so its exception escapes `_handle_alarm`.
    let relayPhases : List AlarmPhase :=
      if cfg.relay_active_seconds > 0 then [AlarmPhase.relay] else []
    let relayEscape : Option String :=
      if cfg.relay_active_seconds > 0 then
        match relay_result with
        | .error e => some e
        | .ok _ => none
      else none
    match relayEscape with
    | some e => (audioPhases ++ relayPhases, st, some e)
    | none =>
        -- Phases 3 and 4: visual flag on, sleep(1), visual flag off.
        let st3 := set_visual_alarm true t3 st
        let st4 := set_visual_alarm false t4 st3
        (audioPhases ++ relayPhases ++ [AlarmPhase.visualOn, AlarmPhase.visualOff],
         st4, none)

end Alarm

namespace AlarmSeq

/-!
Interleaving model of `AlarmManager.trigger` / `_handle_alarm`.
`trigger` spawns a daemon thread running `_handle_alarm`; the whole body
of `_handle_alarm` executes under `self._lock`.  Threads are identified
by `ℕ`.  Program counters: 0 = not yet triggered, 1 = thread spawned and
waiting on the lock, 2–5 = inside the with-block (before audio / relay /
visual-on / visual-off), 6 = finished normally, 7 = died on the uncaught
relay exception.  Emitted events record which thread performed which
phase; the audio and relay phases are emitted only when enabled by the
configuration, mirroring the two `if`s in `_handle_alarm`.  The failure
paths match the sequential embedding `Alarm.handle_alarm`: an audio
exception is caught inside the with-block (no separate transition
needed), while `RelayController.activate` has no handler, so the relay
step can instead abort the sequence — the exception unwinds the
with-block, which releases the lock with the visual phases never run.
-/

/-- Whether the audio phase runs (`enable_audio` and the sound file
exists) and whether the relay phase runs (`relay_active_seconds > 0`). -/
structure Config where
  audio_on : Bool
  relay_on : Bool

/-- An observable alarm event: thread id and phase. -/
abbrev Event := ℕ × Alarm.AlarmPhase

/-- Lock owner plus each thread's program counter. -/
structure SysState where
  lock : Option ℕ
  pc : ℕ → ℕ

/-- No trigger has happened yet. -/
def initState : SysState := { lock := none, pc := fun _ => 0 }

/-- Update one thread's program counter. -/
def setPc (s : SysState) (t : ℕ) (v : ℕ) : SysState :=
  { lock := s.lock, pc := fun u => if u = t then v else s.pc u }

/-- One interleaved step of the system.  `trigger` only spawns the thread
(no lock interaction, no phase event): this is the entirety of what the
caller of `AlarmManager.trigger` executes.  Acquisition requires the lock
to be free; release happens either when the with-block ends right after
the visual-off phase, or when the uncaught relay exception
(`relayFailStep`, possible whenever the relay phase runs at all) unwinds
the with-block after the attempted relay activation — in that case the
visual phases are skipped. -/
inductive Step (cfg : Config) : SysState → List Event → SysState → Prop
  | trigger (s : SysState) (t : ℕ) : s.pc t = 0 →
      Step cfg s [] (setPc s t 1)
  | acquire (s : SysState) (t : ℕ) : s.pc t = 1 → s.lock = none →
      Step cfg s [] { lock := some t, pc := (setPc s t 2).pc }
  | audioStep (s : SysState) (t : ℕ) : s.pc t = 2 →
      Step cfg s (if cfg.audio_on then [(t, Alarm.AlarmPhase.audio)] else [])
        (setPc s t 3)
  | relayStep (s : SysState) (t : ℕ) : s.pc t = 3 →
      Step cfg s (if cfg.relay_on then [(t, Alarm.AlarmPhase.relay)] else [])
        (setPc s t 4)
  | relayFailStep (s : SysState) (t : ℕ) : s.pc t = 3 → cfg.relay_on = true →
      Step cfg s [(t, Alarm.AlarmPhase.relay)] { lock := none, pc := (setPc s t 7).pc }
  | visualOnStep (s : SysState) (t : ℕ) : s.pc t = 4 →
      Step cfg s [(t, Alarm.AlarmPhase.visualOn)] (setPc s t 5)
  | visualOffStep (s : SysState) (t : ℕ) : s.pc t = 5 →
      Step cfg s [(t, Alarm.AlarmPhase.visualOff)] { lock := none, pc := (setPc s t 6).pc }

/-- Reachability: the trace of events emitted along a step sequence. -/
inductive Reach (cfg : Config) : SysState → List Event → SysState → Prop
  | refl (s : SysState) : Reach cfg s [] s
  | tail {s : SysState} {tr : List Event} {s1 : SysState} (evs : List Event)
      (s2 : SysState) :
      Reach cfg s tr s1 → Step cfg s1 evs s2 → Reach cfg s (tr ++ evs) s2

/-- The complete phase sequence of one trigger, in phase order. -/
def fullBlock (cfg : Config) (t : ℕ) : List Event :=
  (if cfg.audio_on then [(t, Alarm.AlarmPhase.audio)] else []) ++
  (if cfg.relay_on then [(t, Alarm.AlarmPhase.relay)] else []) ++
  [(t, Alarm.AlarmPhase.visualOn), (t, Alarm.AlarmPhase.visualOff)]

/-- The phase sequence of one trigger whose relay activation raised: the
audio phase (when enabled) and the attempted relay phase; the visual
phases never run. -/
def abortBlock (cfg : Config) (t : ℕ) : List Event :=
  (if cfg.audio_on then [(t, Alarm.AlarmPhase.audio)] else []) ++
  [(t, Alarm.AlarmPhase.relay)]

/-- The phase sequence of one finished trigger: the full block when the
with-block ran to completion, the aborted block when the relay raised. -/
def runBlock (cfg : Config) (t : ℕ) (completed : Bool) : List Event :=
  if completed then fullBlock cfg t else abortBlock cfg t

/-- The prefix of a phase sequence emitted so far by the thread inside
the with-block, as a function of its program counter. -/
def openBlock (cfg : Config) (t : ℕ) (pcv : ℕ) : List Event :=
  (if 3 ≤ pcv ∧ cfg.audio_on then [(t, Alarm.AlarmPhase.audio)] else []) ++
  (if 4 ≤ pcv ∧ cfg.relay_on then [(t, Alarm.AlarmPhase.relay)] else []) ++
  (if 5 ≤ pcv then [(t, Alarm.AlarmPhase.visualOn)] else [])

/-- The partial block contributed by the current lock holder, if any. -/
def tailTrace (cfg : Config) (s : SysState) : List Event :=
  match s.lock with
  | none => []
  | some t => openBlock cfg t (s.pc t)

/-- Inductive invariant: the lock is held exactly by a thread inside the
with-block, and the event trace so far is a concatenation of finished
per-trigger blocks — each complete or relay-aborted — followed by the
lock holder's partial block. -/
def Inv (cfg : Config) (tr : List Event) (s : SysState) : Prop :=
  (∀ t, s.lock = some t ↔ 2 ≤ s.pc t ∧ s.pc t ≤ 5) ∧
  ∃ ts : List (ℕ × Bool),
    tr = (ts.map fun b => runBlock cfg b.1 b.2).flatten ++ tailTrace cfg s

/-- The state after thread 0 died on the relay exception (pc 7) and
thread 1 then ran its phase sequence to completion (pc 6). -/
def finalAbortState : SysState :=
  { lock := none, pc := fun u => if u = 0 then 7 else if u = 1 then 6 else 0 }

end AlarmSeq

/-- Trivial image oracle over `Unit` pixel arrays, used to instantiate
properties on concrete inputs. -/
def unitVision : Vision Unit where
  slice := fun _ _ _ _ _ => ()
  build_feature_vector := fun _ => { color_hist := [], average_color := (0, 0, 0), edge_density := 0 }
  dominant_color_name := fun _ => "negro"
  compare_feature_vectors := fun _ _ => 0

/-- A concrete detected region of class `car`. -/
def sampleDetection : Detector.DetectionResult Unit :=
  { label := "car", confidence := 9/10, bbox := (0, 0, 1, 1), class_name := "car", roi := () }

/-- A watchlist entry with no declared vehicle type and no descriptor. -/
def sampleEntry : WatchlistEntry :=
  { id := 1, label := "objetivo", vehicle_type := none, color_name := none,
    has_logo := false, is_person := false, feature_vector := none }

/-- A watchlist entry whose declared vehicle type is a case-insensitive
substring of the degraded-mode class tag. -/
def coneEntry : WatchlistEntry :=
  { id := 2, label := "cono", vehicle_type := some "Cono", color_name := none,
    has_logo := false, is_person := false, feature_vector := none }

/-- A concrete camera state. -/
def camState0 : Camera.CameraSnapshot :=
  { source := "0", frame_skip := 1, min_confidence := 1/2, connected := false,
    last_connected_at := none, last_error := none }

namespace Detector

section PickBestLemmas

variable {α : Type} (p : α → Bool) (g : α → ℚ)

/-- The running best score never decreases. -/
theorem pickBest_le_snd (l : List α) (best : Option α) (bs : ℚ) :
    bs ≤ (pickBest p g l best bs).2 := by
  induction l generalizing best bs with
  | nil => simp [pickBest]
  | cons a rest ih =>
      by_cases hp : p a
      · by_cases hg : g a > bs
        · simpa [pickBest, hp, hg] using le_trans hg.le (ih (some a) (g a))
        · simpa [pickBest, hp, hg] using ih best bs
      · simpa [pickBest, hp] using ih best bs

/-- Once a best match is set it is never unset. -/
theorem pickBest_isSome (l : List α) (x : α) (bs : ℚ) :
    (pickBest p g l (some x) bs).1.isSome = true := by
  induction l generalizing x bs with
  | nil => simp [pickBest]
  | cons a rest ih =>
      by_cases hp : p a
      · by_cases hg : g a > bs
        · simpa [pickBest, hp, hg] using ih a (g a)
        · simpa [pickBest, hp, hg] using ih x bs
      · simpa [pickBest, hp] using ih x bs

/-- The loop returns no best match exactly when it started with none and
no eligible entry scores above the initial running best. -/
theorem pickBest_none_iff (l : List α) (best : Option α) (bs : ℚ) :
    (pickBest p g l best bs).1 = none ↔
      best = none ∧ ∀ e ∈ l, p e = true → g e ≤ bs := by
  induction l generalizing best bs with
  | nil => simp [pickBest]
  | cons a rest ih =>
      by_cases hp : p a
      · by_cases hg : g a > bs
        · have hs := pickBest_isSome p g rest a (g a)
          constructor
          · intro h
            rw [pickBest, if_pos hp, if_pos hg] at h
            rw [h] at hs
            simp at hs
          · rintro ⟨-, hall⟩
            exact absurd (hall a (List.mem_cons_self a rest) hp) (not_le.mpr hg)
        · rw [pickBest, if_pos hp, if_neg hg, ih]
          constructor
          · rintro ⟨hb, hall⟩
            refine ⟨hb, ?_⟩
            intro e he hpe
            rcases List.mem_cons.mp he with rfl | he
            · exact not_lt.mp hg
            · exact hall e he hpe
          · rintro ⟨hb, hall⟩
            exact ⟨hb, fun e he hpe => hall e (List.mem_cons_of_mem a he) hpe⟩
      · rw [pickBest, if_neg hp, ih]
        constructor
        · rintro ⟨hb, hall⟩
          refine ⟨hb, ?_⟩
          intro e he hpe
          rcases List.mem_cons.mp he with rfl | he
          · exact absurd hpe hp
          · exact hall e he hpe
        · rintro ⟨hb, hall⟩
          exact ⟨hb, fun e he hpe => hall e (List.mem_cons_of_mem a he) hpe⟩

/-- Every eligible entry scores at most the final running best. -/
theorem pickBest_score_le (l : List α) (best : Option α) (bs : ℚ) :
    ∀ e ∈ l, p e = true → g e ≤ (pickBest p g l best bs).2 := by
  induction l generalizing best bs with
  | nil => simp
  | cons a rest ih =>
      intro e he hpe
      by_cases hp : p a
      · by_cases hg : g a > bs
        · rw [pickBest, if_pos hp, if_pos hg]
          rcases List.mem_cons.mp he with rfl | he
          · exact le_trans le_rfl (pickBest_le_snd p g rest (some e) (g e))
          · exact ih (some a) (g a) e he hpe
        · rw [pickBest, if_pos hp, if_neg hg]
          rcases List.mem_cons.mp he with rfl | he
          · exact le_trans (not_lt.mp hg) (pickBest_le_snd p g rest best bs)
          · exact ih best bs e he hpe
      · rw [pickBest, if_neg hp]
        rcases List.mem_cons.mp he with rfl | he
        · exact absurd hpe hp
        · exact ih best bs e he hpe

end PickBestLemmas

end Detector

namespace Detector

section PickBestCharac

variable {α : Type} (p : α → Bool) (g : α → ℚ)

/-- Full characterization of a successful selection: either the initial
best survives untouched, or the selected entry is the FIRST entry
achieving the maximal eligible score above the initial running best —
every eligible entry before it scores strictly less, every eligible
entry after it scores at most as much. -/
theorem pickBest_some_charac (l : List α) (best : Option α) (bs : ℚ) (e : α) (s : ℚ)
    (h : pickBest p g l best bs = (some e, s)) :
    (best = some e ∧ s = bs ∧ ∀ x ∈ l, p x = true → g x ≤ bs) ∨
    (∃ l1 l2, l = l1 ++ e :: l2 ∧ p e = true ∧ s = g e ∧ bs < g e ∧
      (∀ x ∈ l1, p x = true → g x < g e) ∧ (∀ x ∈ l2, p x = true → g x ≤ g e)) := by
  induction l generalizing best bs with
  | nil =>
      simp only [pickBest, Prod.mk.injEq] at h
      exact Or.inl ⟨h.1, h.2.symm, by simp⟩
  | cons a rest ih =>
      by_cases hp : p a
      · by_cases hg : g a > bs
        · rw [pickBest, if_pos hp, if_pos hg] at h
          rcases ih (some a) (g a) h with ⟨hb, hs, hall⟩ | ⟨l1, l2, hrest, hpe, hs, hlt, h1, h2⟩
          · obtain rfl : a = e := Option.some.inj hb
            right
            exact ⟨[], rest, rfl, hp, hs, hg, by simp, hall⟩
          · right
            refine ⟨a :: l1, l2, by rw [hrest, List.cons_append], hpe, hs, lt_trans hg hlt, ?_, h2⟩
            intro x hx hpx
            rcases List.mem_cons.mp hx with rfl | hx
            · exact hlt
            · exact h1 x hx hpx
        · rw [pickBest, if_pos hp, if_neg hg] at h
          rcases ih best bs h with ⟨hb, hs, hall⟩ | ⟨l1, l2, hrest, hpe, hs, hlt, h1, h2⟩
          · left
            refine ⟨hb, hs, ?_⟩
            intro x hx hpx
            rcases List.mem_cons.mp hx with rfl | hx
            · exact not_lt.mp hg
            · exact hall x hx hpx
          · right
            refine ⟨a :: l1, l2, by rw [hrest, List.cons_append], hpe, hs, hlt, ?_, h2⟩
            intro x hx hpx
            rcases List.mem_cons.mp hx with rfl | hx
            · exact lt_of_le_of_lt (not_lt.mp hg) hlt
            · exact h1 x hx hpx
      · rw [pickBest, if_neg hp] at h
        rcases ih best bs h with ⟨hb, hs, hall⟩ | ⟨l1, l2, hrest, hpe, hs, hlt, h1, h2⟩
        · left
          refine ⟨hb, hs, ?_⟩
          intro x hx hpx
          rcases List.mem_cons.mp hx with rfl | hx
          · exact absurd hpx hp
          · exact hall x hx hpx
        · right
          refine ⟨a :: l1, l2, by rw [hrest, List.cons_append], hpe, hs, hlt, ?_, h2⟩
          intro x hx hpx
          rcases List.mem_cons.mp hx with rfl | hx
          · exact absurd hpx hp
          · exact h1 x hx hpx

/-- A selected best entry coming out of the loop with no initial best is
an eligible member of the list. -/
theorem pickBest_some_elig (l : List α) (bs : ℚ) (e : α) (s : ℚ)
    (h : pickBest p g l none bs = (some e, s)) : e ∈ l ∧ p e = true := by
  rcases pickBest_some_charac p g l none bs e s h with ⟨hb, -, -⟩ | ⟨l1, l2, hrest, hpe, -, -, -, -⟩
  · exact absurd hb (by simp)
  · exact ⟨by rw [hrest]; simp, hpe⟩

end PickBestCharac

end Detector

/--
C1.  The claim says every `DetectionResult` returned by the model-loaded
path of `VehicleDetector.detect` carries a bounding box clamped to
`[0,width)×[0,height)`.  The code clamps `x1, y1, x2, y2` only for the
ROI slice and the emptiness test, then stores the ORIGINAL model `bbox`
in the returned result.  At the failing input — a 10×10 frame with one
raw box `(-5,-5,10,10)` at confidence 0.9 ≥ 0.5 — the region is kept
(its clamped ROI is the whole frame, positive area) but is returned with
the unclamped bbox `(-5,-5,10,10)`, whose `x1 = -5 < 0` lies outside the
frame bounds.
-/
theorem C1_detect_returns_unclamped_bbox :
    (Detector.detectLoaded (1/2) unitVision ⟨10, 10, ()⟩
        [⟨9/10, "car", -5, -5, 10, 10⟩]).map (fun d => d.bbox) = [(-5, -5, 10, 10)]
    ∧ ((-5 : ℤ) < 0) := by
  with_unfolding_all decide

/--
C5 counterexample.  The claim says the degraded-mode region's label is
`"unknown"`; the code labels it `"desconocido"`.  At a 640×480 frame the
single returned region's label is `"desconocido" ≠ "unknown"`.
-/
theorem C5_counterexample :
    (Detector.detect ⟨none, 1/2⟩ unitVision ⟨480, 640, ()⟩).map (fun d => d.label)
      = ["desconocido"]
    ∧ "desconocido" ≠ "unknown" := by
  with_unfolding_all decide

/--
C5 (amended).  When no detection model is loaded, `detect` returns, for
EVERY input frame, exactly one synthetic region: bounding box
`(width//4, height//4, width*3//4, height*3//4)` (the centered 50%×50%
window), confidence 0.3, label `"desconocido"` (Spanish for unknown; the
claim said `"unknown"`); for a 640×480 frame the box is
`(160,120,480,360)`.
-/
theorem C5_degraded_mode {Img : Type} (det : Detector.VehicleDetector Img)
    (V : Vision Img) (frame : Frame Img) (h : det.model = none) :
    Detector.detect det V frame =
      [{ label := "desconocido", confidence := 3/10,
         bbox := (((frame.width / 4 : ℕ) : ℤ), ((frame.height / 4 : ℕ) : ℤ),
                  ((frame.width * 3 / 4 : ℕ) : ℤ), ((frame.height * 3 / 4 : ℕ) : ℤ)),
         class_name := "desconocido",
         roi := V.slice frame.data ((frame.height / 4 : ℕ) : ℤ) ((frame.height * 3 / 4 : ℕ) : ℤ)
                  ((frame.width / 4 : ℕ) : ℤ) ((frame.width * 3 / 4 : ℕ) : ℤ) }]
    ∧ (frame.height = 480 → frame.width = 640 →
        (Detector.detect det V frame).map (fun d => (d.confidence, d.bbox))
          = [(3/10, (160, 120, 480, 360))]) := by
  constructor
  · simp [Detector.detect, h, Detector.degraded_detection]
  · intro hh hw
    simp [Detector.detect, h, Detector.degraded_detection, hh, hw]

/-- Witness for C5: the amended statement at a concrete 640×480 frame. -/
theorem C5_degraded_mode_witness :
    (Detector.detect ⟨none, 1/2⟩ unitVision ⟨480, 640, ()⟩).map (fun d => (d.confidence, d.bbox))
      = [(3/10, (160, 120, 480, 360))] :=
  (C5_degraded_mode ⟨none, 1/2⟩ unitVision ⟨480, 640, ()⟩ rfl).2 rfl rfl

/--
C4 counterexample.  The claim says the phase-4 transition leaves
`lastAlarmAt` unchanged at the phase-3 timestamp.  Running the phase
sequence with phase-3 time 100 and phase-4 time 101 ends with
`last_alarm_at = some 101 ≠ some 100`: `_set_visual_alarm(False)` stamps
the timestamp again.
-/
theorem C4_counterexample :
    Alarm.handle_alarm ⟨false, false, 0⟩ (.ok ()) (.ok ()) 100 101 ⟨false, none⟩
      = ([Alarm.AlarmPhase.visualOn, Alarm.AlarmPhase.visualOff], ⟨false, some 101⟩, none)
    ∧ some (101 : ℕ) ≠ some 100 := by
  with_unfolding_all decide

/--
C4 (amended).  `_set_visual_alarm` records `utcnow()` into
`last_alarm_at` on EVERY call: the phase-3 transition sets the flag true
and stamps the phase-3 time, and the phase-4 transition sets the flag
false and RE-STAMPS `last_alarm_at` with the phase-4 time (it does not
leave it at the phase-3 value).  Consequently a completed phase sequence
ends with `⟨false, some t4⟩`.
-/
theorem C4_visual_transitions (cfg : Alarm.AlarmConfig) (ar : Except String Unit)
    (t3 t4 : ℕ) (st : Alarm.AppState) :
    Alarm.set_visual_alarm true t3 st = ⟨true, some t3⟩
    ∧ Alarm.set_visual_alarm false t4 (Alarm.set_visual_alarm true t3 st) = ⟨false, some t4⟩
    ∧ (Alarm.handle_alarm cfg ar (.ok ()) t3 t4 st).2.1 = ⟨false, some t4⟩ := by
  refine ⟨rfl, rfl, ?_⟩
  cases ar with
  | ok u => cases u; simp [Alarm.handle_alarm, Alarm.set_visual_alarm]
  | error e => simp [Alarm.handle_alarm, Alarm.set_visual_alarm]

/--
C3 counterexample.  The claim says a relay failure is logged and
swallowed and the visual phases still execute.  With audio enabled, a
configured relay and a relay exception `"boom"`, `_handle_alarm` ends
with the exception escaping, the visual-on phase never executed and the
alarm state untouched.
-/
theorem C3_counterexample :
    Alarm.handle_alarm ⟨true, true, 1⟩ (.ok ()) (.error "boom") 100 101 ⟨false, none⟩
      = ([Alarm.AlarmPhase.audio, Alarm.AlarmPhase.relay], ⟨false, none⟩, some "boom")
    ∧ Alarm.AlarmPhase.visualOn ∉ [Alarm.AlarmPhase.audio, Alarm.AlarmPhase.relay] := by
  with_unfolding_all decide

/--
C3 (amended).  A failure of the audio-playback phase is logged and
swallowed and all remaining phases execute (the run is independent of
the playback outcome); but a failure of the relay-activation phase is
NOT caught: it escapes `_handle_alarm`, and the visual-on / visual-off
phases do not execute and the alarm state is left untouched.  When the
relay succeeds, no exception escapes, both visual phases run and the
sequence ends with `⟨false, some t4⟩`.
-/
theorem C3_audio_swallowed_relay_aborts (cfg : Alarm.AlarmConfig)
    (ar1 ar2 relay_result : Except String Unit) (em : String) (t3 t4 : ℕ)
    (st : Alarm.AppState) :
    Alarm.handle_alarm cfg ar1 relay_result t3 t4 st
      = Alarm.handle_alarm cfg ar2 relay_result t3 t4 st
    ∧ ((Alarm.handle_alarm cfg ar1 (.ok ()) t3 t4 st).2.2 = none
        ∧ Alarm.AlarmPhase.visualOn ∈ (Alarm.handle_alarm cfg ar1 (.ok ()) t3 t4 st).1
        ∧ Alarm.AlarmPhase.visualOff ∈ (Alarm.handle_alarm cfg ar1 (.ok ()) t3 t4 st).1
        ∧ (Alarm.handle_alarm cfg ar1 (.ok ()) t3 t4 st).2.1 = ⟨false, some t4⟩)
    ∧ (cfg.relay_active_seconds > 0 →
        Alarm.handle_alarm cfg ar1 (.error em) t3 t4 st
          = ((if cfg.enable_audio ∧ cfg.sound_file_ok then [Alarm.AlarmPhase.audio] else [])
              ++ [Alarm.AlarmPhase.relay], st, some em)) := by
  refine ⟨?_, ?_, ?_⟩
  · cases ar1 <;> cases ar2 <;> rfl
  · cases ar1 <;>
      simp [Alarm.handle_alarm, Alarm.set_visual_alarm]
  · intro hrel
    cases ar1 <;>
      simp [Alarm.handle_alarm, hrel]

/-- Witness for C3 at a concrete configuration: audio enabled, relay
configured for 1 second, relay raising `"boom"`. -/
theorem C3_witness :
    Alarm.handle_alarm ⟨true, true, 1⟩ (.ok ()) (.error "boom") 0 1 ⟨false, none⟩
      = ([Alarm.AlarmPhase.audio, Alarm.AlarmPhase.relay], ⟨false, none⟩, some "boom") := by
  have h := (C3_audio_swallowed_relay_aborts ⟨true, true, 1⟩ (.ok ()) (.ok ())
    (.error "boom") "boom" 0 1 ⟨false, none⟩).2.2 (by norm_num)
  simpa using h

namespace Camera

/-- Behaviour of `_apply_updates` by first failing validation: the
earlier valid overrides are already written when the `ValueError` fires. -/
theorem apply_updates_cases (o : Overrides) (st : CameraSnapshot) :
    (srcInvalid o = true → apply_updates o st = (st, some sourceMsg))
    ∧ (srcInvalid o = false → skipInvalid o = true →
        apply_updates o st = (afterSource o st, some frameSkipMsg))
    ∧ (srcInvalid o = false → skipInvalid o = false → confInvalid o = true →
        apply_updates o st = (afterSkip o (afterSource o st), some confidenceMsg))
    ∧ (srcInvalid o = false → skipInvalid o = false → confInvalid o = false →
        (apply_updates o st).2 = none) := by
  rcases o with ⟨os, ok, oc⟩
  cases os <;> cases ok <;> cases oc <;>
    simp only [apply_updates, srcInvalid, skipInvalid, confInvalid, afterSource, afterSkip,
      decide_eq_true_eq] <;>
    (try split_ifs) <;>
    simp_all

/-- A failing source override implies a supplied source override. -/
theorem srcInvalid_ne (o : Overrides) (h : srcInvalid o = true) : o.source ≠ none := by
  intro hn
  simp [srcInvalid, hn] at h

/-- A failing frame-skip override implies a supplied frame-skip override. -/
theorem skipInvalid_ne (o : Overrides) (h : skipInvalid o = true) : o.frame_skip ≠ none := by
  intro hn
  simp [skipInvalid, hn] at h

/-- A failing confidence override implies a supplied confidence override. -/
theorem confInvalid_ne (o : Overrides) (h : confInvalid o = true) : o.min_confidence ≠ none := by
  intro hn
  simp [confInvalid, hn] at h

end Camera

/--
C2 counterexample.  The claim says a call carrying an invalid override
leaves the camera state entirely unchanged, including any other override
supplied in the same call.  `update(source="nueva", frame_skip=0)` on
the initial state raises the frame-skip validation error, yet the
returned state's `source` has already been changed to `"nueva"`.
-/
theorem C2_counterexample :
    Camera.update ⟨some "nueva", some 0, none⟩ camState0
      = ({ camState0 with source := "nueva" }, some Camera.frameSkipMsg)
    ∧ ({ camState0 with source := "nueva" } : Camera.CameraSnapshot) ≠ camState0 := by
  with_unfolding_all decide

/--
C2 (amended).  An `update` or `connect` call carrying an invalid
override (empty source after stripping, frame-skip < 1, confidence
outside `[0,1]`) reports a validation error (the message of the FIRST
invalid field in the fixed order source → frame-skip → confidence) and
does not mark the camera connected; the invalid field and every field
validated after it are unchanged — but valid overrides occurring
EARLIER in that order have already been applied and stay applied, so the
state is not left entirely unchanged.  (`update` with no overrides at
all is a no-op and reports nothing.)
-/
theorem C2_invalid_override_behavior (o : Camera.Overrides) (now : ℕ)
    (st : Camera.CameraSnapshot) :
    ((Camera.update o st).2.isSome = true ↔
      ((o.source ≠ none ∨ o.frame_skip ≠ none ∨ o.min_confidence ≠ none)
        ∧ (Camera.srcInvalid o = true ∨ Camera.skipInvalid o = true
            ∨ Camera.confInvalid o = true)))
    ∧ ((Camera.connect o now st).2.isSome = true ↔
        (Camera.srcInvalid o = true ∨ Camera.skipInvalid o = true
          ∨ Camera.confInvalid o = true))
    ∧ (Camera.srcInvalid o = true →
        Camera.update o st = (st, some Camera.sourceMsg)
        ∧ Camera.connect o now st = (st, some Camera.sourceMsg))
    ∧ (Camera.srcInvalid o = false → Camera.skipInvalid o = true →
        Camera.update o st = (Camera.afterSource o st, some Camera.frameSkipMsg)
        ∧ Camera.connect o now st = (Camera.afterSource o st, some Camera.frameSkipMsg))
    ∧ (Camera.srcInvalid o = false → Camera.skipInvalid o = false →
        Camera.confInvalid o = true →
        Camera.update o st
          = (Camera.afterSkip o (Camera.afterSource o st), some Camera.confidenceMsg)
        ∧ Camera.connect o now st
          = (Camera.afterSkip o (Camera.afterSource o st), some Camera.confidenceMsg)) := by
  obtain ⟨h1, h2, h3, h4⟩ := Camera.apply_updates_cases o st
  have hconn : ∀ st1 msg, Camera.apply_updates o st = (st1, some msg) →
      Camera.connect o now st = (st1, some msg) := by
    intro st1 msg h
    rw [Camera.connect, h]
  have hupd : ¬(o.source = none ∧ o.frame_skip = none ∧ o.min_confidence = none) →
      Camera.update o st = Camera.apply_updates o st := by
    intro h
    rw [Camera.update, if_neg h]
  have key : (Camera.apply_updates o st).2.isSome = true ↔
      (Camera.srcInvalid o = true ∨ Camera.skipInvalid o = true
        ∨ Camera.confInvalid o = true) := by
    cases hs : Camera.srcInvalid o
    · cases hk : Camera.skipInvalid o
      · cases hc : Camera.confInvalid o
        · rw [h4 hs hk hc]
          simp
        · rw [h3 hs hk hc]
          simp
      · rw [h2 hs hk]
        simp
    · rw [h1 hs]
      simp
  have keyc : (Camera.connect o now st).2.isSome = (Camera.apply_updates o st).2.isSome := by
    rcases hau : Camera.apply_updates o st with ⟨st1, err⟩
    cases err <;> rw [Camera.connect, hau]
  refine ⟨?_, ?_, ?_, ?_, ?_⟩
  · by_cases hall : o.source = none ∧ o.frame_skip = none ∧ o.min_confidence = none
    · rw [Camera.update, if_pos hall]
      simp [hall.1, hall.2.1, hall.2.2]
    · rw [hupd hall, key]
      have hne : o.source ≠ none ∨ o.frame_skip ≠ none ∨ o.min_confidence ≠ none := by
        by_contra hcon
        push_neg at hcon
        exact hall ⟨hcon.1, hcon.2.1, hcon.2.2⟩
      exact ⟨fun hd => ⟨hne, hd⟩, fun hd => hd.2⟩
  · rw [keyc, key]
  · intro hs
    exact ⟨(hupd fun hall => Camera.srcInvalid_ne o hs hall.1).trans (h1 hs),
      hconn _ _ (h1 hs)⟩
  · intro hs hk
    exact ⟨(hupd fun hall => Camera.skipInvalid_ne o hk hall.2.1).trans (h2 hs hk),
      hconn _ _ (h2 hs hk)⟩
  · intro hs hk hc
    exact ⟨(hupd fun hall => Camera.confInvalid_ne o hc hall.2.2).trans (h3 hs hk hc),
      hconn _ _ (h3 hs hk hc)⟩

/-- Witness for C2: a whitespace-only source override is rejected with
the source message and the state is returned unchanged. -/
theorem C2_witness :
    Camera.update ⟨some " ", some 5, none⟩ camState0 = (camState0, some Camera.sourceMsg) :=
  ((C2_invalid_override_behavior ⟨some " ", some 5, none⟩ 0 camState0).2.2.1
    (by with_unfolding_all decide)).1

namespace Detector

/-- Score of an entry with no (Python-truthy) stored descriptor: flat
baseline 0.1 plus the categorical colour and logo adjustments. -/
theorem scoreEntry_no_fv {Img : Type} (V : Vision Img) (d : DetectionResult Img)
    (rf : FeatureVector) (entry : WatchlistEntry) (h : entry.feature_vector = none) :
    scoreEntry V d rf entry
      = 1/10 + colorAdjust (V.dominant_color_name d.roi) entry
            + logoAdjust rf.edge_density entry := by
  rcases entry with ⟨i, lb, vt, cn, hl, ip, fv⟩
  simp only at h
  subst h
  unfold scoreEntry colorAdjust logoAdjust
  dsimp only
  cases cn with
  | none =>
      cases hl <;> by_cases he : rf.edge_density > 3/20 <;> simp [he] <;> ring
  | some c =>
      by_cases hc : c = ""
      · cases hl <;> by_cases he : rf.edge_density > 3/20 <;> simp [hc, he] <;> ring
      · by_cases hdc : V.dominant_color_name d.roi = pyLower c <;> cases hl <;>
          by_cases he : rf.edge_density > 3/20 <;> simp [hc, hdc, he] <;> ring

/-- A reported best match is an eligible member of the watchlist, for
the detection carried by the same result. -/
theorem findMatchesFrom_best {Img : Type} (V : Vision Img)
    (dets : List (DetectionResult Img)) (wl : List WatchlistEntry)
    (r : MatchResult Img) (e : WatchlistEntry)
    (hr : r ∈ findMatchesFrom V dets wl) (he : r.best_match = some e) :
    r.detection ∈ dets ∧ e ∈ wl ∧ match_vehicle_type r.detection e = true := by
  rw [findMatchesFrom] at hr
  obtain ⟨d, hd, hfd⟩ := List.mem_map.mp hr
  subst hfd
  dsimp only at he ⊢
  have hpair : pickBest (match_vehicle_type d)
      (scoreEntry V d (V.build_feature_vector d.roi)) wl none 0
      = (some e, (pickBest (match_vehicle_type d)
          (scoreEntry V d (V.build_feature_vector d.roi)) wl none 0).2) :=
    Prod.ext he rfl
  obtain ⟨hmem, helig⟩ := pickBest_some_elig _ _ wl 0 e _ hpair
  exact ⟨hd, hmem, helig⟩

end Detector

/--
C6.  For an entry with no stored descriptor, the score computed by the
`find_matches` loop is exactly the flat baseline 0.1 plus the categorical
adjustments (+0.1 / −0.05 for a declared colour, +0.05 / −0.05 for a
declared logo), and it is never influenced by the histogram,
average-colour or edge comparison sub-scores: it is invariant under
changing `compare_feature_vectors`, the candidate histogram and the
candidate average colour, as long as the dominant colour name and the
candidate edge density are unchanged.
-/
theorem C6_no_descriptor_score {Img : Type} (V V2 : Vision Img)
    (d : Detector.DetectionResult Img) (rf rf2 : FeatureVector) (entry : WatchlistEntry)
    (h : entry.feature_vector = none) :
    Detector.scoreEntry V d rf entry
      = 1/10 + Detector.colorAdjust (V.dominant_color_name d.roi) entry
            + Detector.logoAdjust rf.edge_density entry
    ∧ (V2.dominant_color_name d.roi = V.dominant_color_name d.roi →
        rf2.edge_density = rf.edge_density →
        Detector.scoreEntry V2 d rf2 entry = Detector.scoreEntry V d rf entry) := by
  refine ⟨Detector.scoreEntry_no_fv V d rf entry h, ?_⟩
  intro hdc hed
  rw [Detector.scoreEntry_no_fv V2 d rf2 entry h, Detector.scoreEntry_no_fv V d rf entry h,
    hdc, hed]

/-- Witness for C6 at a concrete no-descriptor entry. -/
theorem C6_witness :
    Detector.scoreEntry unitVision sampleDetection ⟨[], (0, 0, 0), 0⟩ sampleEntry
      = 1/10 + Detector.colorAdjust (unitVision.dominant_color_name sampleDetection.roi)
            sampleEntry
          + Detector.logoAdjust (0 : ℚ) sampleEntry :=
  (C6_no_descriptor_score unitVision unitVision sampleDetection ⟨[], (0, 0, 0), 0⟩
    ⟨[], (0, 0, 0), 0⟩ sampleEntry rfl).1

/--
C7.  `find_matches` returns one result per detected region in detection
order; the reported best entry is the maximum-scoring eligible entry,
with ties resolved in favour of the first entry encountered (all earlier
eligible entries score strictly less, all later ones at most as much);
and the best entry is `none` exactly when no eligible entry scores
strictly above the initial running best 0.0 — a merely-eligible entry
with non-positive net score is never reported.
-/
theorem C7_find_matches_selection {Img : Type} (V : Vision Img)
    (dets : List (Detector.DetectionResult Img)) (wl : List WatchlistEntry)
    (i : ℕ) (d : Detector.DetectionResult Img) (r : Detector.MatchResult Img)
    (hd : dets[i]? = some d) (hr : (Detector.findMatchesFrom V dets wl)[i]? = some r) :
    (Detector.findMatchesFrom V dets wl).length = dets.length
    ∧ r.detection = d
    ∧ (r.best_match = none ↔
        ∀ e ∈ wl, Detector.match_vehicle_type d e = true →
          Detector.scoreEntry V d (V.build_feature_vector d.roi) e ≤ 0)
    ∧ (∀ e, r.best_match = some e →
        r.best_score = Detector.scoreEntry V d (V.build_feature_vector d.roi) e
        ∧ 0 < Detector.scoreEntry V d (V.build_feature_vector d.roi) e
        ∧ ∃ l1 l2, wl = l1 ++ e :: l2
            ∧ Detector.match_vehicle_type d e = true
            ∧ (∀ x ∈ l1, Detector.match_vehicle_type d x = true →
                Detector.scoreEntry V d (V.build_feature_vector d.roi) x
                  < Detector.scoreEntry V d (V.build_feature_vector d.roi) e)
            ∧ (∀ x ∈ l2, Detector.match_vehicle_type d x = true →
                Detector.scoreEntry V d (V.build_feature_vector d.roi) x
                  ≤ Detector.scoreEntry V d (V.build_feature_vector d.roi) e)) := by
  have hlen : (Detector.findMatchesFrom V dets wl).length = dets.length := by
    rw [Detector.findMatchesFrom, List.length_map]
  rw [Detector.findMatchesFrom, List.getElem?_map, hd] at hr
  simp only [Option.map_some'] at hr
  obtain rfl := Option.some.inj hr
  refine ⟨hlen, rfl, ?_, ?_⟩
  · rw [Detector.pickBest_none_iff]
    simp
  · intro e he
    dsimp only at he
    have hpair : Detector.pickBest (Detector.match_vehicle_type d)
        (Detector.scoreEntry V d (V.build_feature_vector d.roi)) wl none 0
        = (some e, (Detector.pickBest (Detector.match_vehicle_type d)
            (Detector.scoreEntry V d (V.build_feature_vector d.roi)) wl none 0).2) :=
      Prod.ext he rfl
    rcases Detector.pickBest_some_charac _ _ wl none 0 e _ hpair with
      ⟨hb, -, -⟩ | ⟨l1, l2, hwl, hpe, hs, hlt, hbefore, hafter⟩
    · exact absurd hb (by simp)
    · refine ⟨hs, hlt, l1, l2, hwl, hpe, ?_, ?_⟩
      · intro x hx hpx
        exact hbefore x hx hpx
      · intro x hx hpx
        exact hafter x hx hpx

/-- Witness for C7 at a one-detection, one-entry instance. -/
theorem C7_witness :
    (0 : ℚ) < Detector.scoreEntry unitVision sampleDetection
        (unitVision.build_feature_vector sampleDetection.roi) sampleEntry :=
  ((C7_find_matches_selection unitVision [sampleDetection] [sampleEntry] 0 sampleDetection
      ⟨sampleDetection, some sampleEntry, 1/10, ⟨[], (0, 0, 0), 0⟩⟩
      (by with_unfolding_all decide) (by with_unfolding_all decide)).2.2.2 sampleEntry
      rfl).2.1

/--
C8.  `find_matches` never reports a best entry whose eligibility check
(`_match_vehicle_type`) fails for the region's class tag: a reported
best entry is an eligible member of the watchlist.
-/
theorem C8_best_entry_eligible {Img : Type} (V : Vision Img)
    (dets : List (Detector.DetectionResult Img)) (wl : List WatchlistEntry)
    (r : Detector.MatchResult Img) (e : WatchlistEntry)
    (hr : r ∈ Detector.findMatchesFrom V dets wl) (he : r.best_match = some e) :
    e ∈ wl ∧ Detector.match_vehicle_type r.detection e = true := by
  have h := Detector.findMatchesFrom_best V dets wl r e hr he
  exact ⟨h.2.1, h.2.2⟩

/-- Witness for C8 at a one-detection, one-entry instance. -/
theorem C8_witness :
    Detector.match_vehicle_type sampleDetection sampleEntry = true :=
  (C8_best_entry_eligible unitVision [sampleDetection] [sampleEntry]
      ⟨sampleDetection, some sampleEntry, 1/10, ⟨[], (0, 0, 0), 0⟩⟩ sampleEntry
      (by with_unfolding_all decide) rfl).2

/--
C10.  In degraded mode the synthetic region's class tag is
`"desconocido"`, which is in neither `YOLO_PERSON_CLASSES` nor
`YOLO_VEHICLE_CLASSES`; hence an entry flagged `is_person` or an entry
with no declared vehicle type is never eligible against a degraded-mode
region, and the best match reported for such a region can only be an
entry whose declared vehicle type lowercases to a substring of
`"desconocido"`.
-/
theorem C10_degraded_eligibility {Img : Type} (V : Vision Img) (frame : Frame Img) :
    Detector.YOLO_PERSON_CLASSES.contains "desconocido" = false
    ∧ Detector.YOLO_VEHICLE_CLASSES.contains "desconocido" = false
    ∧ (∀ d ∈ Detector.degraded_detection V frame, ∀ e : WatchlistEntry,
        (Detector.match_vehicle_type d e = true ↔
          e.is_person = false ∧ ∃ t, e.vehicle_type = some t
            ∧ pyIn (pyLower t) "desconocido" = true))
    ∧ (∀ (wl : List WatchlistEntry) (r : Detector.MatchResult Img) (e : WatchlistEntry),
        r ∈ Detector.findMatchesFrom V (Detector.degraded_detection V frame) wl →
        r.best_match = some e →
          e.is_person = false ∧ ∃ t, e.vehicle_type = some t
            ∧ pyIn (pyLower t) "desconocido" = true) := by
  have hperson : Detector.YOLO_PERSON_CLASSES.contains "desconocido" = false := by decide
  have hvehicle : Detector.YOLO_VEHICLE_CLASSES.contains "desconocido" = false := by decide
  have hlower : pyLower "desconocido" = "desconocido" := by decide
  have helig : ∀ d ∈ Detector.degraded_detection V frame, ∀ e : WatchlistEntry,
      (Detector.match_vehicle_type d e = true ↔
        e.is_person = false ∧ ∃ t, e.vehicle_type = some t
          ∧ pyIn (pyLower t) "desconocido" = true) := by
    intro d hd e
    have hclass : d.class_name = "desconocido" := by
      simp [Detector.degraded_detection] at hd
      rw [hd]
    rcases e with ⟨i, lb, vt, cn, hl, ip, fv⟩
    cases ip with
    | true =>
        simp [Detector.match_vehicle_type, hclass]
        try decide
    | false =>
        cases vt with
        | none =>
            simp [Detector.match_vehicle_type, hclass]
            try decide
        | some t => simp [Detector.match_vehicle_type, hclass, hlower]
  refine ⟨hperson, hvehicle, helig, ?_⟩
  intro wl r e hr he
  obtain ⟨hdet, hmem, heligr⟩ := Detector.findMatchesFrom_best V _ wl r e hr he
  exact (helig r.detection hdet e).mp heligr

set_option maxRecDepth 4000 in
/-- Witness for C10: the degraded region of a 640×480 frame is matched
by an entry declaring vehicle type `"Cono"` (a case-insensitive
substring of `"desconocido"`). -/
theorem C10_witness :
    Detector.match_vehicle_type
      ({ label := "desconocido", confidence := 3/10, bbox := (160, 120, 480, 360),
         class_name := "desconocido", roi := () } : Detector.DetectionResult Unit)
      coneEntry = true :=
  ((C10_degraded_eligibility unitVision ⟨480, 640, ()⟩).2.2.1 _
      (by with_unfolding_all decide) coneEntry).mpr ⟨rfl, "Cono", rfl, by decide⟩

namespace AlarmSeq

/-- `setPc` does not touch the lock. -/
theorem setPc_lock (s : SysState) (t v : ℕ) : (setPc s t v).lock = s.lock := rfl

/-- `setPc` sets the chosen thread's counter. -/
theorem setPc_pc_self (s : SysState) (t v : ℕ) : (setPc s t v).pc t = v := by
  simp [setPc]

/-- `setPc` leaves other threads' counters alone. -/
theorem setPc_pc_other (s : SysState) (t v u : ℕ) (h : u ≠ t) :
    (setPc s t v).pc u = s.pc u := by
  simp [setPc, h]

/-- The complete block is the pc-5 partial block plus the final
visual-off event. -/
theorem fullBlock_eq (cfg : Config) (t : ℕ) :
    fullBlock cfg t = openBlock cfg t 5 ++ [(t, Alarm.AlarmPhase.visualOff)] := by
  cases haud : cfg.audio_on <;> cases hrel : cfg.relay_on <;>
    simp [fullBlock, openBlock, haud, hrel]

/-- Partial blocks at the successive program counters. -/
theorem openBlock_two (cfg : Config) (t : ℕ) : openBlock cfg t 2 = [] := by
  simp [openBlock]

/-- Entering pc 3 appends the audio event (when enabled). -/
theorem openBlock_three (cfg : Config) (t : ℕ) :
    openBlock cfg t 3
      = openBlock cfg t 2 ++ (if cfg.audio_on then [(t, Alarm.AlarmPhase.audio)] else []) := by
  cases haud : cfg.audio_on <;> cases hrel : cfg.relay_on <;>
    simp [openBlock, haud, hrel]

/-- Entering pc 4 appends the relay event (when enabled). -/
theorem openBlock_four (cfg : Config) (t : ℕ) :
    openBlock cfg t 4
      = openBlock cfg t 3 ++ (if cfg.relay_on then [(t, Alarm.AlarmPhase.relay)] else []) := by
  cases haud : cfg.audio_on <;> cases hrel : cfg.relay_on <;>
    simp [openBlock, haud, hrel]

/-- Entering pc 5 appends the visual-on event. -/
theorem openBlock_five (cfg : Config) (t : ℕ) :
    openBlock cfg t 5 = openBlock cfg t 4 ++ [(t, Alarm.AlarmPhase.visualOn)] := by
  cases haud : cfg.audio_on <;> cases hrel : cfg.relay_on <;>
    simp [openBlock, haud, hrel]

/-- The lock holder's partial block is read off its program counter. -/
theorem tailTrace_some {cfg : Config} {s : SysState} {t : ℕ} (h : s.lock = some t) :
    tailTrace cfg s = openBlock cfg t (s.pc t) := by
  simp [tailTrace, h]

/-- The lock characterization is preserved when the lock-holding thread
moves to another in-block program counter. -/
theorem lock_iff_inside {s : SysState}
    (hlock : ∀ u, s.lock = some u ↔ 2 ≤ s.pc u ∧ s.pc u ≤ 5)
    {t a b : ℕ} (ha : s.pc t = a) (h2 : 2 ≤ a) (h5 : a ≤ 5) (hb2 : 2 ≤ b) (hb5 : b ≤ 5) :
    ∀ u, (setPc s t b).lock = some u ↔
      2 ≤ (setPc s t b).pc u ∧ (setPc s t b).pc u ≤ 5 := by
  have hst : s.lock = some t := (hlock t).mpr ⟨ha ▸ h2, ha ▸ h5⟩
  intro u
  by_cases hu : u = t
  · subst hu
    constructor
    · intro _
      rw [setPc_pc_self]
      exact ⟨hb2, hb5⟩
    · intro _
      exact hst
  · rw [setPc_lock, setPc_pc_other s t b u hu]
    exact hlock u

/-- One-step preservation of the invariant. -/
theorem inv_step (cfg : Config) {s : SysState} {evs : List Event} {s2 : SysState}
    (hstep : Step cfg s evs s2) {tr : List Event} (hinv : Inv cfg tr s) :
    Inv cfg (tr ++ evs) s2 := by
  obtain ⟨hlock, ts, htr⟩ := hinv
  cases hstep with
  | trigger t h0 =>
      have hnt : ∀ u, s.lock = some u → u ≠ t := by
        intro u hl hut
        subst hut
        have h2 := ((hlock u).mp hl).1
        rw [h0] at h2
        omega
      refine ⟨?_, ts, ?_⟩
      · intro u
        by_cases hu : u = t
        · subst hu
          constructor
          · intro hl
            exact absurd rfl (hnt u hl)
          · intro hpc
            rw [setPc_pc_self] at hpc
            omega
        · rw [setPc_lock, setPc_pc_other s t 1 u hu]
          exact hlock u
      · rw [List.append_nil, htr]
        congr 1
        rcases hl : s.lock with _ | u
        · rw [show tailTrace cfg s = [] from by simp [tailTrace, hl],
            show tailTrace cfg (setPc s t 1) = [] from by simp [tailTrace, setPc, hl]]
        · have hu := hnt u hl
          rw [tailTrace_some hl, tailTrace_some (show (setPc s t 1).lock = some u from hl),
            setPc_pc_other s t 1 u hu]
  | acquire t h1 hl =>
      have hnone : ∀ u, ¬(2 ≤ s.pc u ∧ s.pc u ≤ 5) := by
        intro u hc
        have h2 := (hlock u).mpr hc
        rw [hl] at h2
        exact Option.noConfusion h2
      refine ⟨?_, ts, ?_⟩
      · intro u
        by_cases hu : u = t
        · subst hu
          constructor
          · intro _
            rw [show ({ lock := some u, pc := (setPc s u 2).pc } : SysState).pc u
                = (setPc s u 2).pc u from rfl, setPc_pc_self]
            omega
          · intro _
            rfl
        · constructor
          · intro hlu
            exact absurd (Option.some.inj hlu).symm hu
          · intro hpc
            rw [show ({ lock := some t, pc := (setPc s t 2).pc } : SysState).pc u
                = (setPc s t 2).pc u from rfl, setPc_pc_other s t 2 u hu] at hpc
            exact absurd hpc (hnone u)
      · rw [List.append_nil, htr]
        congr 1
        have hpre : tailTrace cfg s = [] := by simp [tailTrace, hl]
        rw [hpre]
        simp [tailTrace, openBlock, setPc]
  | audioStep t h2 =>
      have hst : s.lock = some t := (hlock t).mpr (by rw [h2]; exact ⟨le_refl 2, by omega⟩)
      refine ⟨lock_iff_inside hlock h2 (by omega) (by omega) (by omega) (by omega), ts, ?_⟩
      rw [htr, tailTrace_some hst, h2, tailTrace_some (show (setPc s t 3).lock = some t from hst),
        setPc_pc_self, openBlock_three, openBlock_two, List.append_assoc]
  | relayStep t h3 =>
      have hst : s.lock = some t := (hlock t).mpr (by rw [h3]; exact ⟨by omega, by omega⟩)
      refine ⟨lock_iff_inside hlock h3 (by omega) (by omega) (by omega) (by omega), ts, ?_⟩
      rw [htr, tailTrace_some hst, h3, tailTrace_some (show (setPc s t 4).lock = some t from hst),
        setPc_pc_self, openBlock_four, List.append_assoc]
  | visualOnStep t h4 =>
      have hst : s.lock = some t := (hlock t).mpr (by rw [h4]; exact ⟨by omega, by omega⟩)
      refine ⟨lock_iff_inside hlock h4 (by omega) (by omega) (by omega) (by omega), ts, ?_⟩
      rw [htr, tailTrace_some hst, h4, tailTrace_some (show (setPc s t 5).lock = some t from hst),
        setPc_pc_self, openBlock_five, List.append_assoc]
  | relayFailStep t h3 hrel =>
      have hst : s.lock = some t := (hlock t).mpr (by rw [h3]; exact ⟨by omega, by omega⟩)
      refine ⟨?_, ts ++ [(t, false)], ?_⟩
      · intro u
        constructor
        · intro h
          exact Option.noConfusion h
        · intro hpc
          by_cases hu : u = t
          · subst hu
            rw [show ({ lock := none, pc := (setPc s u 7).pc } : SysState).pc u
                = (setPc s u 7).pc u from rfl, setPc_pc_self] at hpc
            omega
          · rw [show ({ lock := none, pc := (setPc s t 7).pc } : SysState).pc u
                = (setPc s t 7).pc u from rfl, setPc_pc_other s t 7 u hu] at hpc
            have h2 := (hlock u).mpr hpc
            rw [hst] at h2
            exact absurd (Option.some.inj h2).symm hu
      · rw [htr, tailTrace_some hst, h3]
        have hpost : tailTrace cfg ({ lock := none, pc := (setPc s t 7).pc } : SysState) = [] := by
          simp [tailTrace]
        rw [hpost, List.append_nil, List.map_append, List.flatten_append, List.append_assoc,
          openBlock_three, openBlock_two]
        simp [runBlock, abortBlock]
  | visualOffStep t h5 =>
      have hst : s.lock = some t := (hlock t).mpr (by rw [h5]; exact ⟨by omega, by omega⟩)
      refine ⟨?_, ts ++ [(t, true)], ?_⟩
      · intro u
        constructor
        · intro h
          exact Option.noConfusion h
        · intro hpc
          by_cases hu : u = t
          · subst hu
            rw [show ({ lock := none, pc := (setPc s u 6).pc } : SysState).pc u
                = (setPc s u 6).pc u from rfl, setPc_pc_self] at hpc
            omega
          · rw [show ({ lock := none, pc := (setPc s t 6).pc } : SysState).pc u
                = (setPc s t 6).pc u from rfl, setPc_pc_other s t 6 u hu] at hpc
            have h2 := (hlock u).mpr hpc
            rw [hst] at h2
            exact absurd (Option.some.inj h2).symm hu
      · rw [htr, tailTrace_some hst, h5]
        have hpost : tailTrace cfg ({ lock := none, pc := (setPc s t 6).pc } : SysState) = [] := by
          simp [tailTrace]
        rw [hpost, List.append_nil, List.map_append, List.flatten_append, List.append_assoc,
          ← fullBlock_eq]
        simp [runBlock]

/-- Every reachable state satisfies the invariant. -/
theorem reach_inv (cfg : Config) {tr : List Event} {s : SysState}
    (h : Reach cfg initState tr s) : Inv cfg tr s := by
  induction h with
  | refl => exact ⟨fun t => by simp [initState], [], by simp [tailTrace, initState]⟩
  | tail evs s2 hr hstep ih => exact inv_step cfg hstep ih

/-- States with the same lock and the same counters are equal. -/
theorem sysState_eq {a b : SysState} (hl : a.lock = b.lock)
    (hp : ∀ u, a.pc u = b.pc u) : a = b := by
  cases a
  cases b
  simp only [SysState.mk.injEq]
  exact ⟨hl, funext hp⟩

/-- Reachability transported along an equality of end states. -/
theorem reach_cast {cfg : Config} {s : SysState} {tr : List Event} {s1 s2 : SysState}
    (h : Reach cfg s tr s1) (he : s1 = s2) : Reach cfg s tr s2 := he ▸ h

/-- A concrete reachable execution (audio and relay enabled): thread 0
triggers, acquires, plays audio and dies on the relay exception
(releasing the lock); thread 1 then triggers and runs its whole phase
sequence. -/
theorem abortThenFull_reach :
    Reach ⟨true, true⟩ initState
      [(0, Alarm.AlarmPhase.audio), (0, Alarm.AlarmPhase.relay),
       (1, Alarm.AlarmPhase.audio), (1, Alarm.AlarmPhase.relay),
       (1, Alarm.AlarmPhase.visualOn), (1, Alarm.AlarmPhase.visualOff)]
      finalAbortState := by
  have r0 : Reach ⟨true, true⟩ initState [] initState := Reach.refl _
  have r1 := Reach.tail _ _ r0 (Step.trigger _ 0 rfl)
  have r2 := Reach.tail _ _ r1 (Step.acquire _ 0 rfl rfl)
  have r3 := Reach.tail _ _ r2 (Step.audioStep _ 0 rfl)
  have r4 := Reach.tail _ _ r3 (Step.relayFailStep _ 0 rfl rfl)
  have r5 := Reach.tail _ _ r4 (Step.trigger _ 1 rfl)
  have r6 := Reach.tail _ _ r5 (Step.acquire _ 1 rfl rfl)
  have r7 := Reach.tail _ _ r6 (Step.audioStep _ 1 rfl)
  have r8 := Reach.tail _ _ r7 (Step.relayStep _ 1 rfl)
  have r9 := Reach.tail _ _ r8 (Step.visualOnStep _ 1 rfl)
  have r10 := Reach.tail _ _ r9 (Step.visualOffStep _ 1 rfl)
  refine reach_cast r10 (sysState_eq rfl ?_)
  intro u
  by_cases h1 : u = 1
  · subst h1
    rfl
  · by_cases h0 : u = 0
    · subst h0
      rfl
    · simp [setPc, initState, finalAbortState, h0, h1]

end AlarmSeq

/--
C9 counterexample.  The claim says a second trigger's phases run only
after the first trigger's FULL phase sequence (audio, relay, visual-on,
visual-off) has completed.  With audio and relay enabled, the execution
in which thread 0's relay activation raises (the exception is uncaught,
per `_handle_alarm`, so the with-block unwinds and releases the lock) is
reachable and produces the trace
`[audio₀, relay₀, audio₁, relay₁, visualOn₁, visualOff₁]`: thread 1's
phases run although thread 0's visual-off — its full sequence — never
happened.
-/
theorem C9_counterexample :
    AlarmSeq.Reach ⟨true, true⟩ AlarmSeq.initState
      [(0, Alarm.AlarmPhase.audio), (0, Alarm.AlarmPhase.relay),
       (1, Alarm.AlarmPhase.audio), (1, Alarm.AlarmPhase.relay),
       (1, Alarm.AlarmPhase.visualOn), (1, Alarm.AlarmPhase.visualOff)]
      AlarmSeq.finalAbortState
    ∧ (0, Alarm.AlarmPhase.visualOff)
        ∉ ([(0, Alarm.AlarmPhase.audio), (0, Alarm.AlarmPhase.relay),
            (1, Alarm.AlarmPhase.audio), (1, Alarm.AlarmPhase.relay),
            (1, Alarm.AlarmPhase.visualOn), (1, Alarm.AlarmPhase.visualOff)] :
          List AlarmSeq.Event)
    ∧ (1, Alarm.AlarmPhase.visualOn)
        ∈ ([(0, Alarm.AlarmPhase.audio), (0, Alarm.AlarmPhase.relay),
            (1, Alarm.AlarmPhase.audio), (1, Alarm.AlarmPhase.relay),
            (1, Alarm.AlarmPhase.visualOn), (1, Alarm.AlarmPhase.visualOff)] :
          List AlarmSeq.Event) :=
  ⟨AlarmSeq.abortThenFull_reach, by decide, by decide⟩

/--
C9 (amended).  `trigger(reason)` only spawns the handler thread: in
every reachable state a trigger step is enabled for any not-yet-triggered
thread regardless of who holds the alarm lock, and it emits no phase
event — the caller never runs an alarm phase.  The lock serializes the
phase sequences: every reachable event trace is a concatenation of
finished per-trigger blocks, followed by at most one partial block of
the current lock holder — so phases of distinct triggers never
interleave, and a second trigger's phases run only after the first
trigger's sequence has finished.  But a finished sequence is not always
FULL: it is either the complete block (audio, relay, visual-on,
visual-off, each emitted when configured) or the relay-aborted block
(audio, relay only), because the uncaught relay exception ends the
sequence after the relay phase and releases the lock with the visual
phases never run.
-/
theorem C9_trigger_async_serialized (cfg : AlarmSeq.Config) (tr : List AlarmSeq.Event)
    (s : AlarmSeq.SysState) (h : AlarmSeq.Reach cfg AlarmSeq.initState tr s) :
    (∀ t, s.pc t = 0 → AlarmSeq.Step cfg s [] (AlarmSeq.setPc s t 1))
    ∧ ∃ ts : List (ℕ × Bool),
        tr = (ts.map fun b => AlarmSeq.runBlock cfg b.1 b.2).flatten
          ++ AlarmSeq.tailTrace cfg s :=
  ⟨fun t ht => AlarmSeq.Step.trigger s t ht, (AlarmSeq.reach_inv cfg h).2⟩

/-- Witness for C9: the counterexample trace decomposes into a
relay-aborted block of thread 0 and a complete block of thread 1, via
the theorem applied to that reachable execution. -/
theorem C9_witness :
    ∃ ts : List (ℕ × Bool),
      ([(0, Alarm.AlarmPhase.audio), (0, Alarm.AlarmPhase.relay),
        (1, Alarm.AlarmPhase.audio), (1, Alarm.AlarmPhase.relay),
        (1, Alarm.AlarmPhase.visualOn), (1, Alarm.AlarmPhase.visualOff)] :
          List AlarmSeq.Event)
        = (ts.map fun b => AlarmSeq.runBlock ⟨true, true⟩ b.1 b.2).flatten
            ++ AlarmSeq.tailTrace ⟨true, true⟩ AlarmSeq.finalAbortState :=
  (C9_trigger_async_serialized ⟨true, true⟩ _ AlarmSeq.finalAbortState
    AlarmSeq.abortThenFull_reach).2
